import Mathlib

/-
Verification of the BMS (battery management system) poller in src/main.go.

The development shallowly embeds the Go source: byte buffers are lists of
`Fin 256` (Go `[]byte`), Go `int`/`int64` become `Int` with explicit 64-bit
wraparound where the source can wrap, `float64` arithmetic is modelled by
exact rational arithmetic, and the run-time bounds checks that Go performs
on every slice/index expression become an explicit `Except` error: a Go
panic from an out-of-range access on a truncated frame is modelled as
`DecodeError.Truncated` (the decoder's only failure mode).
-/

set_option maxRecDepth 8000

/-- A byte, as in Go's `byte` (`uint8`). -/
abbrev Byte := Fin 256

/-- Failure of a frame decoder. The only failure mode of the decoders in
src/main.go is a buffer too short for the fixed offsets they read
(in Go this surfaces as a slice/index bounds panic; `binaryToIntBigEndian`'s
length guard, a `log.Fatalf`, is likewise only reachable from a wrong-sized
slice and is mapped to the same error). -/
inductive DecodeError where
  | Truncated
deriving DecidableEq, Repr

/-- Go slice expression `data[lo:hi]`: defined when `lo ≤ hi ≤ len(data)`,
otherwise a bounds panic (modelled as `DecodeError.Truncated`). -/
def goSlice (data : List Byte) (lo hi : Nat) : Except DecodeError (List Byte) :=
  if lo ≤ hi ∧ hi ≤ data.length then Except.ok ((data.drop lo).take (hi - lo))
  else Except.error DecodeError.Truncated

/-- Go index expression `data[i]`: defined when `i < len(data)`, otherwise a
bounds panic (modelled as `DecodeError.Truncated`). -/
def goIndex (data : List Byte) (i : Nat) : Except DecodeError Byte :=
  if i < data.length then Except.ok (data.getD i 0)
  else Except.error DecodeError.Truncated

/-- Go helper `reverseBytes` (src/main.go:53-59): reverse a byte slice. -/
def reverseBytes (data : List Byte) : List Byte :=
  data.reverse

/-- `binary.BigEndian.Uint32`: big-endian 32-bit read of the first four bytes. -/
def bigEndianUint32 (b : List Byte) : Nat :=
  (b.getD 0 0).val <<< 24 ||| (b.getD 1 0).val <<< 16 ||| (b.getD 2 0).val <<< 8 |||
    (b.getD 3 0).val

/-- Go helper `binaryToIntBigEndian` (src/main.go:62-70): reverse the 4-byte
slice, then read it big-endian as an unsigned 32-bit value, cast to `int`.
On a slice whose length is not 4 the Go function aborts via `log.Fatalf`;
that guard is modelled as a decode failure (it is unreachable from the
decoders, which always pass 4-byte slices). -/
def binaryToIntBigEndian (data : List Byte) : Except DecodeError Int :=
  if data.length = 4 then
    Except.ok ((bigEndianUint32 (reverseBytes data) : Nat) : Int)
  else Except.error DecodeError.Truncated

/-- Two's-complement reading of a 64-bit unsigned representative, i.e. the
value of a Go `int64` whose bit pattern is `n % 2^64`. -/
def int64OfNat (n : Nat) : Int :=
  if n % 2 ^ 64 < 2 ^ 63 then ((n % 2 ^ 64 : Nat) : Int)
  else ((n % 2 ^ 64 : Nat) : Int) - 2 ^ 64

/-- Go helper `binaryToInt` (src/main.go:156-162): byte-by-byte big-endian
accumulation `result = (result << 8) | int64(b)` into an `int64` accumulator
(which wraps at 64 bits), starting from 0. -/
def binaryToInt (data : List Byte) : Int :=
  int64OfNat (data.foldl (fun r b => (r <<< 8) % 2 ^ 64 ||| b.val) 0)

/-- One hexadecimal digit, lowercase, as produced by Go's `hex.EncodeToString`. -/
def hexDigit (n : Nat) : Char :=
  if n < 10 then Char.ofNat (48 + n) else Char.ofNat (87 + n)

/-- Go `hex.EncodeToString`: lowercase hexadecimal rendering, two digits per
byte, high nibble first. -/
def hexEncodeToString (data : List Byte) : String :=
  String.mk (data.foldr (fun b acc => hexDigit (b.val / 16) :: hexDigit (b.val % 16) :: acc) [])

/-- The decoded battery telemetry record (struct `BatteryInfo`,
src/main.go:26-50). Go's `map[int]float64` for the cell voltages is modelled
as an association list in insertion order (the loop inserts strictly
increasing keys, so no key is ever written twice). -/
structure BatteryInfo where
  PackVoltage : Int
  Voltage : Int
  BatteryPack : List (Nat × ℚ)
  Current : ℚ
  Watt : ℚ
  RemainAh : ℚ
  FactoryAh : ℚ
  CellTemperature : Int
  MosfetTemperature : Int
  Heat : String
  DischargeSwitchState : Int
  ProtectState : String
  FailureState : List Byte
  EquilibriumState : Int
  BatteryState : Int
  SOC : Int
  SOH : Int
  DischargesCount : Int
  DischargesAHCount : Int
  BatteryStatus : String
  BalanceStatus : String
  CellStatus : String
  HeatStatus : String
deriving DecidableEq, Repr

/-- The cell-voltage loop of `parseBatteryInfo` (src/main.go:84-91): walk the
32-byte pack block two bytes at a time (`i` is the running byte offset),
read each pair byte-swapped (`binaryToInt([]byte{batPack[i+1], batPack[i]})`),
skip zero readings, and record cell `i/2 + 1 ↦ value / 1000`.
The Go loop indexes `batPack[i+1]` and so would panic on an odd-length
block; it is only ever run on the 32-byte slice `data[16:48]`, so the
one-byte leftover case cannot arise and is mapped to the empty suffix. -/
def cellLoop : List Byte → Nat → List (Nat × ℚ)
  | b0 :: b1 :: rest, i =>
    let cellVoltage : Int := binaryToInt [b1, b0]
    if cellVoltage = 0 then cellLoop rest (i + 2)
    else (i / 2 + 1, (cellVoltage : ℚ) / 1000) :: cellLoop rest (i + 2)
  | _, _ => []

/-- Go `math.Round`: round to the nearest integer, half away from zero. -/
def mathRound (x : ℚ) : ℚ :=
  if x < 0 then -((⌊-x + 1 / 2⌋ : ℤ) : ℚ) else ((⌊x + 1 / 2⌋ : ℤ) : ℚ)

/-- `getBatteryStatus` (src/main.go:164-179): classify by the sign of
`Current` (0 ⇒ Standby, positive ⇒ Charging, negative ⇒ Discharging), then
override with "Full Charge" when `SOC >= 100 || BatteryState == 4`. -/
def getBatteryStatus (battery : BatteryInfo) : String :=
  let status :=
    if battery.Current = 0 then "Standby"
    else if battery.Current > 0 then "Charging"
    else "Discharging"
  if battery.SOC ≥ 100 ∨ battery.BatteryState = 4 then "Full Charge" else status

/-- `parseBatteryInfo` (src/main.go:72-153), the battery-telemetry frame
decoder, with every Go slice/index expression taken through `goSlice` /
`goIndex` in source order. The first line models the debug
`hex.EncodeToString(data[12:16])` print, which evaluates `data[12:16]`
before any field is decoded. -/
def parseBatteryInfo (data : List Byte) : Except DecodeError BatteryInfo := do
  let _rawVoltagePrint ← goSlice data 12 16
  let pvSlice ← goSlice data 8 12
  let packVoltage ← binaryToIntBigEndian pvSlice
  let vSlice ← goSlice data 12 16
  let voltage ← binaryToIntBigEndian vSlice
  let batPack ← goSlice data 16 48
  let batteryPack := cellLoop batPack 0
  let curSlice ← goSlice data 48 52
  let current : Int := binaryToInt curSlice
  let currentAmp : ℚ := (current : ℚ) / 1000
  let watt : ℚ := mathRound ((voltage : ℚ) * currentAmp / 10000 * 100) / 100
  let remSlice ← goSlice data 62 64
  let remainAh : ℚ := (binaryToInt remSlice : ℚ) / 100
  let facSlice ← goSlice data 64 66
  let factoryAh : ℚ := (binaryToInt facSlice : ℚ) / 100
  let cellTSlice ← goSlice data 52 54
  let mosTSlice ← goSlice data 54 56
  let heatSlice ← goSlice data 68 72
  let heat := hexEncodeToString heatSlice
  let b68 ← goIndex data 68
  let dischargeSwitchState : Int := if b68.val >>> 7 ≥ 8 then 0 else 1
  let protSlice ← goSlice data 76 80
  let failSlice ← goSlice data 80 84
  let eqSlice ← goSlice data 84 88
  let bstSlice ← goSlice data 88 90
  let socSlice ← goSlice data 90 92
  let sohSlice ← goSlice data 92 96
  let dcSlice ← goSlice data 96 100
  let dahSlice ← goSlice data 100 104
  let battery0 : BatteryInfo :=
    { PackVoltage := packVoltage
      Voltage := voltage
      BatteryPack := batteryPack
      Current := currentAmp
      Watt := watt
      RemainAh := remainAh
      FactoryAh := factoryAh
      CellTemperature := binaryToInt cellTSlice
      MosfetTemperature := binaryToInt mosTSlice
      Heat := heat
      DischargeSwitchState := dischargeSwitchState
      ProtectState := hexEncodeToString protSlice
      FailureState := failSlice
      EquilibriumState := binaryToInt eqSlice
      BatteryState := binaryToInt bstSlice
      SOC := binaryToInt socSlice
      SOH := binaryToInt sohSlice
      DischargesCount := binaryToInt dcSlice
      DischargesAHCount := binaryToInt dahSlice
      BatteryStatus := ""
      BalanceStatus := ""
      CellStatus := ""
      HeatStatus := "" }
  let battery1 := { battery0 with BatteryStatus := getBatteryStatus battery0 }
  let battery2 :=
    { battery1 with
      BalanceStatus :=
        if battery1.EquilibriumState > 0 then
          "Battery cells are being balanced for better performance."
        else "All cells are well-balanced." }
  let battery3 :=
    { battery2 with
      CellStatus :=
        if (battery2.FailureState.getD 0 0).val > 0 ∨ (battery2.FailureState.getD 1 0).val > 0 then
          "Fault alert! There may be a problem with cell."
        else "Battery is in optimal working condition." }
  let battery4 :=
    { battery3 with
      HeatStatus :=
        if battery3.Heat.data.getD 7 ' ' = '2' then "Self-heating is on"
        else "Self-heating is off" }
  return battery4

/-- The record `parseBatteryInfo` produces on a buffer of length at least 104,
with every successful slice written out explicitly. -/
def mkBattery (data : List Byte) : BatteryInfo :=
  let packVoltage : Int := (bigEndianUint32 (reverseBytes ((data.drop 8).take 4)) : Nat)
  let voltage : Int := (bigEndianUint32 (reverseBytes ((data.drop 12).take 4)) : Nat)
  let batteryPack := cellLoop ((data.drop 16).take 32) 0
  let current : Int := binaryToInt ((data.drop 48).take 4)
  let currentAmp : ℚ := (current : ℚ) / 1000
  let watt : ℚ := mathRound ((voltage : ℚ) * currentAmp / 10000 * 100) / 100
  let remainAh : ℚ := (binaryToInt ((data.drop 62).take 2) : ℚ) / 100
  let factoryAh : ℚ := (binaryToInt ((data.drop 64).take 2) : ℚ) / 100
  let heat := hexEncodeToString ((data.drop 68).take 4)
  let dischargeSwitchState : Int := if (data.getD 68 0).val >>> 7 ≥ 8 then 0 else 1
  let battery0 : BatteryInfo :=
    { PackVoltage := packVoltage
      Voltage := voltage
      BatteryPack := batteryPack
      Current := currentAmp
      Watt := watt
      RemainAh := remainAh
      FactoryAh := factoryAh
      CellTemperature := binaryToInt ((data.drop 52).take 2)
      MosfetTemperature := binaryToInt ((data.drop 54).take 2)
      Heat := heat
      DischargeSwitchState := dischargeSwitchState
      ProtectState := hexEncodeToString ((data.drop 76).take 4)
      FailureState := (data.drop 80).take 4
      EquilibriumState := binaryToInt ((data.drop 84).take 4)
      BatteryState := binaryToInt ((data.drop 88).take 2)
      SOC := binaryToInt ((data.drop 90).take 2)
      SOH := binaryToInt ((data.drop 92).take 4)
      DischargesCount := binaryToInt ((data.drop 96).take 4)
      DischargesAHCount := binaryToInt ((data.drop 100).take 4)
      BatteryStatus := ""
      BalanceStatus := ""
      CellStatus := ""
      HeatStatus := "" }
  let battery1 := { battery0 with BatteryStatus := getBatteryStatus battery0 }
  let battery2 :=
    { battery1 with
      BalanceStatus :=
        if battery1.EquilibriumState > 0 then
          "Battery cells are being balanced for better performance."
        else "All cells are well-balanced." }
  let battery3 :=
    { battery2 with
      CellStatus :=
        if (battery2.FailureState.getD 0 0).val > 0 ∨ (battery2.FailureState.getD 1 0).val > 0 then
          "Fault alert! There may be a problem with cell."
        else "Battery is in optimal working condition." }
  let battery4 :=
    { battery3 with
      HeatStatus :=
        if battery3.Heat.data.getD 7 ' ' = '2' then "Self-heating is on"
        else "Self-heating is off" }
  battery4

theorem except_bind_ok {α β : Type} (a : α) (f : α → Except DecodeError β) :
    (Except.ok a >>= f : Except DecodeError β) = f a := rfl

theorem except_pure_eq_ok {α : Type} (a : α) :
    (pure a : Except DecodeError α) = Except.ok a := rfl

theorem except_bind_ok_inv {α β : Type} {e : Except DecodeError α}
    {f : α → Except DecodeError β} {b : β} (h : (e >>= f) = Except.ok b) :
    ∃ a, e = Except.ok a ∧ f a = Except.ok b := by
  cases e with
  | ok a => exact ⟨a, rfl, h⟩
  | error err => simp [Bind.bind, Except.bind] at h

theorem goSlice_ok (data : List Byte) (lo hi : Nat) (h1 : lo ≤ hi) (h2 : hi ≤ data.length) :
    goSlice data lo hi = Except.ok ((data.drop lo).take (hi - lo)) := by
  simp [goSlice, h1, h2]

theorem goIndex_ok (data : List Byte) (i : Nat) (h : i < data.length) :
    goIndex data i = Except.ok (data.getD i 0) := by
  simp [goIndex, h]

theorem binaryToIntBigEndian_ok (l : List Byte) (h : l.length = 4) :
    binaryToIntBigEndian l = Except.ok ((bigEndianUint32 (reverseBytes l) : Nat) : Int) := by
  simp [binaryToIntBigEndian, h]

theorem goSlice_le {data : List Byte} {lo hi : Nat} {a : List Byte}
    (h : goSlice data lo hi = Except.ok a) : hi ≤ data.length := by
  by_cases hc : lo ≤ hi ∧ hi ≤ data.length
  · exact hc.2
  · simp [goSlice, hc] at h

theorem length_drop_take (data : List Byte) (lo n : Nat) (h : lo + n ≤ data.length) :
    ((data.drop lo).take n).length = n := by
  simp [List.length_take, List.length_drop]
  omega

/-- On any buffer of length at least 104 the battery decoder succeeds and
produces exactly the record `mkBattery data`. -/
theorem parseBatteryInfo_ok (data : List Byte) (h : 104 ≤ data.length) :
    parseBatteryInfo data = Except.ok (mkBattery data) := by
  have s1216 : goSlice data 12 16 = Except.ok ((data.drop 12).take 4) :=
    goSlice_ok data 12 16 (by omega) (by omega)
  have s0812 : goSlice data 8 12 = Except.ok ((data.drop 8).take 4) :=
    goSlice_ok data 8 12 (by omega) (by omega)
  have s1648 : goSlice data 16 48 = Except.ok ((data.drop 16).take 32) :=
    goSlice_ok data 16 48 (by omega) (by omega)
  have s4852 : goSlice data 48 52 = Except.ok ((data.drop 48).take 4) :=
    goSlice_ok data 48 52 (by omega) (by omega)
  have s6264 : goSlice data 62 64 = Except.ok ((data.drop 62).take 2) :=
    goSlice_ok data 62 64 (by omega) (by omega)
  have s6466 : goSlice data 64 66 = Except.ok ((data.drop 64).take 2) :=
    goSlice_ok data 64 66 (by omega) (by omega)
  have s5254 : goSlice data 52 54 = Except.ok ((data.drop 52).take 2) :=
    goSlice_ok data 52 54 (by omega) (by omega)
  have s5456 : goSlice data 54 56 = Except.ok ((data.drop 54).take 2) :=
    goSlice_ok data 54 56 (by omega) (by omega)
  have s6872 : goSlice data 68 72 = Except.ok ((data.drop 68).take 4) :=
    goSlice_ok data 68 72 (by omega) (by omega)
  have i68 : goIndex data 68 = Except.ok (data.getD 68 0) :=
    goIndex_ok data 68 (by omega)
  have s7680 : goSlice data 76 80 = Except.ok ((data.drop 76).take 4) :=
    goSlice_ok data 76 80 (by omega) (by omega)
  have s8084 : goSlice data 80 84 = Except.ok ((data.drop 80).take 4) :=
    goSlice_ok data 80 84 (by omega) (by omega)
  have s8488 : goSlice data 84 88 = Except.ok ((data.drop 84).take 4) :=
    goSlice_ok data 84 88 (by omega) (by omega)
  have s8890 : goSlice data 88 90 = Except.ok ((data.drop 88).take 2) :=
    goSlice_ok data 88 90 (by omega) (by omega)
  have s9092 : goSlice data 90 92 = Except.ok ((data.drop 90).take 2) :=
    goSlice_ok data 90 92 (by omega) (by omega)
  have s9296 : goSlice data 92 96 = Except.ok ((data.drop 92).take 4) :=
    goSlice_ok data 92 96 (by omega) (by omega)
  have s96100 : goSlice data 96 100 = Except.ok ((data.drop 96).take 4) :=
    goSlice_ok data 96 100 (by omega) (by omega)
  have s100104 : goSlice data 100 104 = Except.ok ((data.drop 100).take 4) :=
    goSlice_ok data 100 104 (by omega) (by omega)
  have be1 : binaryToIntBigEndian ((data.drop 8).take 4) =
      Except.ok ((bigEndianUint32 (reverseBytes ((data.drop 8).take 4)) : Nat) : Int) :=
    binaryToIntBigEndian_ok _ (length_drop_take data 8 4 (by omega))
  have be2 : binaryToIntBigEndian ((data.drop 12).take 4) =
      Except.ok ((bigEndianUint32 (reverseBytes ((data.drop 12).take 4)) : Nat) : Int) :=
    binaryToIntBigEndian_ok _ (length_drop_take data 12 4 (by omega))
  simp only [parseBatteryInfo, s1216, s0812, s1648, s4852, s6264, s6466, s5254, s5456,
    s6872, i68, s7680, s8084, s8488, s8890, s9092, s9296, s96100, s100104, be1, be2,
    except_bind_ok, except_pure_eq_ok]
  rfl

/-- The battery decoder only succeeds on buffers of length at least 104. -/
theorem parseBatteryInfo_ok_length (data : List Byte) (b : BatteryInfo)
    (h : parseBatteryInfo data = Except.ok b) : 104 ≤ data.length := by
  rw [parseBatteryInfo] at h
  obtain ⟨a1, h1, h⟩ := except_bind_ok_inv h
  obtain ⟨a2, h2, h⟩ := except_bind_ok_inv h
  obtain ⟨a3, h3, h⟩ := except_bind_ok_inv h
  obtain ⟨a4, h4, h⟩ := except_bind_ok_inv h
  obtain ⟨a5, h5, h⟩ := except_bind_ok_inv h
  obtain ⟨a6, h6, h⟩ := except_bind_ok_inv h
  obtain ⟨a7, h7, h⟩ := except_bind_ok_inv h
  obtain ⟨a8, h8, h⟩ := except_bind_ok_inv h
  obtain ⟨a9, h9, h⟩ := except_bind_ok_inv h
  obtain ⟨a10, h10, h⟩ := except_bind_ok_inv h
  obtain ⟨a11, h11, h⟩ := except_bind_ok_inv h
  obtain ⟨a12, h12, h⟩ := except_bind_ok_inv h
  obtain ⟨a13, h13, h⟩ := except_bind_ok_inv h
  obtain ⟨a14, h14, h⟩ := except_bind_ok_inv h
  obtain ⟨a15, h15, h⟩ := except_bind_ok_inv h
  obtain ⟨a16, h16, h⟩ := except_bind_ok_inv h
  obtain ⟨a17, h17, h⟩ := except_bind_ok_inv h
  obtain ⟨a18, h18, h⟩ := except_bind_ok_inv h
  obtain ⟨a19, h19, h⟩ := except_bind_ok_inv h
  obtain ⟨a20, h20, h⟩ := except_bind_ok_inv h
  obtain ⟨a21, h21, h⟩ := except_bind_ok_inv h
  exact goSlice_le h21

/-- The all-zero battery frame, used as a concrete test input. -/
def zeroFrame : List Byte := List.replicate 104 0

/-- Claim C1: on every buffer shorter than 104 bytes the battery-telemetry
decoder fails with `DecodeError.Truncated`; it never returns a partially
populated record. -/
theorem parseBatteryInfo_short_truncated (data : List Byte) (h : data.length < 104) :
    parseBatteryInfo data = Except.error DecodeError.Truncated := by
  cases hp : parseBatteryInfo data with
  | ok b => exact absurd (parseBatteryInfo_ok_length data b hp) (by omega)
  | error e => cases e; rfl

theorem parseBatteryInfo_short_truncated_witness :
    (List.replicate 50 (0 : Byte)).length < 104 ∧
      parseBatteryInfo (List.replicate 50 0) = Except.error DecodeError.Truncated :=
  ⟨by decide, parseBatteryInfo_short_truncated (List.replicate 50 0) (by decide)⟩

/-- Case analysis of `getBatteryStatus`: the "Full Charge" override wins
whenever `SOC ≥ 100` or `BatteryState = 4`; otherwise the status follows the
sign of `Current`. -/
theorem getBatteryStatus_cases (battery : BatteryInfo) :
    ((battery.SOC ≥ 100 ∨ battery.BatteryState = 4) →
      getBatteryStatus battery = "Full Charge") ∧
    (¬(battery.SOC ≥ 100 ∨ battery.BatteryState = 4) →
      (battery.Current = 0 → getBatteryStatus battery = "Standby") ∧
      (0 < battery.Current → getBatteryStatus battery = "Charging") ∧
      (battery.Current < 0 → getBatteryStatus battery = "Discharging")) := by
  simp only [getBatteryStatus]
  constructor
  · intro hful
    rw [if_pos hful]
  · intro hful
    rw [if_neg hful]
    refine ⟨?_, ?_, ?_⟩
    · intro hc; rw [if_pos hc]
    · intro hc; rw [if_neg hc.ne', if_pos hc]
    · intro hc; rw [if_neg hc.ne, if_neg (not_lt.mpr hc.le)]

/-- A decoded record's `BatteryStatus` is exactly `getBatteryStatus` of the
record itself (the later struct updates only touch the other status strings). -/
theorem mkBattery_status (data : List Byte) :
    (mkBattery data).BatteryStatus = getBatteryStatus (mkBattery data) := rfl

/-- Claim C3: for every decoded battery record, `SOC ≥ 100` or
`BatteryState = 4` forces `BatteryStatus = "Full Charge"` regardless of the
sign of `Current`; otherwise zero current gives "Standby", positive current
"Charging" and negative current "Discharging". -/
theorem decoded_status_derivation (data : List Byte) (b : BatteryInfo)
    (h : parseBatteryInfo data = Except.ok b) :
    ((b.SOC ≥ 100 ∨ b.BatteryState = 4) → b.BatteryStatus = "Full Charge") ∧
    (¬(b.SOC ≥ 100 ∨ b.BatteryState = 4) →
      (b.Current = 0 → b.BatteryStatus = "Standby") ∧
      (0 < b.Current → b.BatteryStatus = "Charging") ∧
      (b.Current < 0 → b.BatteryStatus = "Discharging")) := by
  have hlen := parseBatteryInfo_ok_length data b h
  have hb : mkBattery data = b :=
    Except.ok.inj ((parseBatteryInfo_ok data hlen).symm.trans h)
  subst hb
  rw [mkBattery_status]
  exact getBatteryStatus_cases (mkBattery data)

theorem decoded_status_derivation_witness :
    (mkBattery zeroFrame).BatteryStatus = "Standby" := by
  have h := decoded_status_derivation zeroFrame (mkBattery zeroFrame)
    (parseBatteryInfo_ok zeroFrame (by decide))
  refine (h.2 ?_).1 ?_
  · decide
  · show (binaryToInt ((zeroFrame.drop 48).take 4) : ℚ) / 1000 = 0
    have hc : binaryToInt ((zeroFrame.drop 48).take 4) = 0 := by decide
    rw [hc]
    norm_num

/-- The spec's rounding to two decimal places, half away from zero. -/
def roundTwoDecimals (x : ℚ) : ℚ := mathRound (x * 100) / 100

/-- Claim C4: for every frame of length at least 104 the decoded `Watt` field
is exactly `round(voltage * (current_raw / 1000) / 10000, 2)`, where
`voltage` is the decoded `Voltage` field and `current_raw` the raw big-endian
current word at offsets 48..51. -/
theorem decoded_watt_formula (data : List Byte) (b : BatteryInfo)
    (h : parseBatteryInfo data = Except.ok b) :
    b.Watt = roundTwoDecimals
      ((b.Voltage : ℚ) * ((binaryToInt ((data.drop 48).take 4) : ℚ) / 1000) / 10000) := by
  have hlen := parseBatteryInfo_ok_length data b h
  have hb : mkBattery data = b :=
    Except.ok.inj ((parseBatteryInfo_ok data hlen).symm.trans h)
  subst hb
  rfl

theorem decoded_watt_formula_witness :
    (mkBattery zeroFrame).Watt = roundTwoDecimals
      (((mkBattery zeroFrame).Voltage : ℚ) *
        ((binaryToInt ((zeroFrame.drop 48).take 4) : ℚ) / 1000) / 10000) :=
  decoded_watt_formula zeroFrame (mkBattery zeroFrame)
    (parseBatteryInfo_ok zeroFrame (by decide))

/-- Claim C6: for every decoded battery frame, `DischargeSwitchState` is 0
exactly when byte 68 shifted right by 7 is at least 8; since a byte shifted
right by 7 is at most 1, the test is never true and the field is always 1. -/
theorem dischargeSwitchState_always_one (data : List Byte) (b : BatteryInfo)
    (h : parseBatteryInfo data = Except.ok b) :
    (b.DischargeSwitchState = 0 ↔ (data.getD 68 0).val >>> 7 ≥ 8) ∧
    b.DischargeSwitchState = 1 := by
  have hlen := parseBatteryInfo_ok_length data b h
  have hb : mkBattery data = b :=
    Except.ok.inj ((parseBatteryInfo_ok data hlen).symm.trans h)
  subst hb
  have hfield : (mkBattery data).DischargeSwitchState =
      if (data.getD 68 0).val >>> 7 ≥ 8 then 0 else 1 := rfl
  have hsh : (data.getD 68 0).val >>> 7 = (data.getD 68 0).val / 2 ^ 7 :=
    Nat.shiftRight_eq_div_pow _ _
  have hnot : ¬ (data.getD 68 0).val >>> 7 ≥ 8 := by
    have hv : (data.getD 68 0).val < 256 := (data.getD 68 0).isLt
    rw [hsh]
    omega
  rw [hfield, if_neg hnot]
  refine ⟨⟨fun h01 => absurd h01 (by decide), fun hge => absurd hge hnot⟩, rfl⟩

theorem dischargeSwitchState_always_one_witness :
    (mkBattery zeroFrame).DischargeSwitchState = 1 :=
  (dischargeSwitchState_always_one zeroFrame (mkBattery zeroFrame)
    (parseBatteryInfo_ok zeroFrame (by decide))).2

theorem int64OfNat_small (n : Nat) (h : n < 2 ^ 63) : int64OfNat n = (n : Int) := by
  have h64 : n % 2 ^ 64 = n := Nat.mod_eq_of_lt (lt_of_lt_of_le h (by norm_num))
  rw [int64OfNat, h64, if_pos h]

/-- Bound on the unsigned accumulator of `binaryToInt`: starting below `2^k`
it stays below `2^(k + 8·len)`. -/
theorem binaryToInt_fold_lt (l : List Byte) : ∀ (r k : Nat), r < 2 ^ k →
    l.foldl (fun r b => (r <<< 8) % 2 ^ 64 ||| b.val) r < 2 ^ (k + 8 * l.length) := by
  induction l with
  | nil => intro r k h; simpa using h
  | cons b rest ih =>
    intro r k h
    have hstep : (r <<< 8) % 2 ^ 64 ||| b.val < 2 ^ (k + 8) := by
      apply Nat.or_lt_two_pow
      · calc (r <<< 8) % 2 ^ 64 ≤ r <<< 8 := Nat.mod_le _ _
          _ = r * 2 ^ 8 := Nat.shiftLeft_eq r 8
          _ < 2 ^ k * 2 ^ 8 := mul_lt_mul_of_pos_right h (by norm_num)
          _ = 2 ^ (k + 8) := (pow_add 2 k 8).symm
      · calc b.val < 256 := b.isLt
          _ = 2 ^ 8 := by norm_num
          _ ≤ 2 ^ (k + 8) := Nat.pow_le_pow_right (by norm_num) (by omega)
    have := ih _ _ hstep
    have hexp : k + 8 + 8 * rest.length = k + 8 * (rest.length + 1) := by ring
    simpa [List.foldl_cons, hexp, List.length_cons, Nat.mul_add] using this

/-- `binaryToInt` on at most seven bytes never wraps into the negatives. -/
theorem binaryToInt_nonneg (l : List Byte) (h : l.length ≤ 7) : 0 ≤ binaryToInt l := by
  rw [binaryToInt]
  have hf : l.foldl (fun r b => (r <<< 8) % 2 ^ 64 ||| b.val) 0 < 2 ^ (0 + 8 * l.length) :=
    binaryToInt_fold_lt l 0 0 (by norm_num)
  have hlt : l.foldl (fun r b => (r <<< 8) % 2 ^ 64 ||| b.val) 0 < 2 ^ 63 :=
    lt_of_lt_of_le hf (Nat.pow_le_pow_right (by norm_num) (by omega))
  rw [int64OfNat_small _ hlt]
  exact Int.ofNat_nonneg _

theorem mathRound_nonneg (x : ℚ) (h : 0 ≤ x) : 0 ≤ mathRound x := by
  rw [mathRound, if_neg (not_lt.mpr h)]
  have hz : (0 : ℤ) ≤ ⌊x + 1 / 2⌋ := by
    rw [Int.le_floor]
    push_cast
    linarith
  exact_mod_cast hz

/-- If the decoded current is non-negative, `getBatteryStatus` can never
answer "Discharging". -/
theorem getBatteryStatus_ne_discharging (battery : BatteryInfo)
    (h : 0 ≤ battery.Current) : getBatteryStatus battery ≠ "Discharging" := by
  simp only [getBatteryStatus]
  by_cases hful : battery.SOC ≥ 100 ∨ battery.BatteryState = 4
  · rw [if_pos hful]; decide
  · rw [if_neg hful]
    by_cases h0 : battery.Current = 0
    · rw [if_pos h0]; decide
    · have hpos : 0 < battery.Current := lt_of_le_of_ne h (Ne.symm h0)
      rw [if_neg h0, if_pos hpos]; decide

/-- Claim C9: `binaryToInt` is non-negative on every slice of at most seven
bytes, hence every decoded battery record has `Current ≥ 0`, `Watt ≥ 0` and a
`BatteryStatus` that is never "Discharging". -/
theorem battery_never_discharging :
    (∀ l : List Byte, l.length ≤ 7 → 0 ≤ binaryToInt l) ∧
    ∀ (data : List Byte) (b : BatteryInfo), parseBatteryInfo data = Except.ok b →
      0 ≤ b.Current ∧ 0 ≤ b.Watt ∧ b.BatteryStatus ≠ "Discharging" := by
  refine ⟨binaryToInt_nonneg, ?_⟩
  intro data b h
  have hlen := parseBatteryInfo_ok_length data b h
  have hb : mkBattery data = b :=
    Except.ok.inj ((parseBatteryInfo_ok data hlen).symm.trans h)
  subst hb
  have hcur : (0 : ℚ) ≤ (mkBattery data).Current := by
    show (0 : ℚ) ≤ (binaryToInt ((data.drop 48).take 4) : ℚ) / 1000
    have hnn : 0 ≤ binaryToInt ((data.drop 48).take 4) :=
      binaryToInt_nonneg _ (le_trans (List.length_take_le _ _) (by norm_num))
    have : (0 : ℚ) ≤ (binaryToInt ((data.drop 48).take 4) : ℚ) := by exact_mod_cast hnn
    positivity
  refine ⟨hcur, ?_, ?_⟩
  · show (0 : ℚ) ≤ mathRound (((mkBattery data).Voltage : ℚ) *
      (mkBattery data).Current / 10000 * 100) / 100
    have hV : (0 : ℚ) ≤ ((mkBattery data).Voltage : ℚ) := by
      show (0 : ℚ) ≤ ((bigEndianUint32 (reverseBytes ((data.drop 12).take 4)) : Nat) : Int) 
      positivity
    have harg : (0 : ℚ) ≤ ((mkBattery data).Voltage : ℚ) *
        (mkBattery data).Current / 10000 * 100 := by
      have := mul_nonneg hV hcur
      positivity
    have := mathRound_nonneg _ harg
    positivity
  · rw [mkBattery_status]
    exact getBatteryStatus_ne_discharging (mkBattery data) hcur

theorem battery_never_discharging_witness :
    0 ≤ binaryToInt [(255 : Byte), 255, 255, 255, 255, 255, 255] ∧
    (mkBattery zeroFrame).BatteryStatus ≠ "Discharging" :=
  ⟨battery_never_discharging.1 [255, 255, 255, 255, 255, 255, 255] (by decide),
   (battery_never_discharging.2 zeroFrame (mkBattery zeroFrame)
     (parseBatteryInfo_ok zeroFrame (by decide))).2.2⟩

/-- Modelled from the spec: the two's-complement reinterpretation of a 32-bit
unsigned big-endian pattern that the specification requires for the current
field ("raw 32-bit big-endian signed integer"). The source never performs
this reinterpretation. -/
def int32OfNat (n : Nat) : Int :=
  if n % 2 ^ 32 < 2 ^ 31 then ((n % 2 ^ 32 : Nat) : Int)
  else ((n % 2 ^ 32 : Nat) : Int) - 2 ^ 32

/-- A 104-byte battery frame whose current word has the sign bit set:
byte 48 is 0x80, everything else 0. -/
def signBitFrame : List Byte :=
  List.replicate 48 0 ++ [(128 : Byte)] ++ List.replicate 55 0

/-- Claim C2 fails on the code: on `signBitFrame` (current word 0x80000000,
sign bit set) the decoder produces the large positive current
2147483648/1000 A, not the negative two's-complement value −2147483648/1000 A
demanded by the spec; `binaryToInt` never sign-extends. -/
theorem current_unsigned_not_sign_extended :
    parseBatteryInfo signBitFrame = Except.ok (mkBattery signBitFrame) ∧
    (mkBattery signBitFrame).Current = (2147483648 : ℚ) / 1000 ∧
    0 < (mkBattery signBitFrame).Current ∧
    (mkBattery signBitFrame).Current ≠ ((int32OfNat 2147483648 : ℤ) : ℚ) / 1000 := by
  have hraw : binaryToInt ((signBitFrame.drop 48).take 4) = 2147483648 := by decide
  have hcur : (mkBattery signBitFrame).Current = (2147483648 : ℚ) / 1000 := by
    show (binaryToInt ((signBitFrame.drop 48).take 4) : ℚ) / 1000 = _
    rw [hraw]
    norm_num
  have hneg : int32OfNat 2147483648 = -2147483648 := by decide
  refine ⟨parseBatteryInfo_ok signBitFrame (by decide), hcur, ?_, ?_⟩
  · rw [hcur]; norm_num
  · rw [hcur, hneg]; norm_num

/-- The byte-swapped pair read of the cell loop: `binaryToInt` of the
high byte followed by the low byte is `hi * 256 + lo`. -/
theorem binaryToInt_pair (hi lo : Byte) :
    binaryToInt [hi, lo] = ((hi.val * 256 + lo.val : Nat) : Int) := by
  rw [binaryToInt]
  simp only [List.foldl_cons, List.foldl_nil]
  have h28 : (2 : ℕ) ^ 8 = 256 := by norm_num
  have h0 : ((0 : Nat) <<< 8) % 2 ^ 64 ||| hi.val = hi.val := by
    norm_num [Nat.shiftLeft_eq]
  rw [h0]
  have h1 : (hi.val <<< 8) % 2 ^ 64 = hi.val * 256 := by
    rw [Nat.shiftLeft_eq, h28]
    have hlt : hi.val * 256 < 2 ^ 64 := by
      calc hi.val * 256 < 256 * 256 := mul_lt_mul_of_pos_right hi.isLt (by norm_num)
        _ < 2 ^ 64 := by norm_num
    exact Nat.mod_eq_of_lt hlt
  rw [h1]
  have hlo : lo.val < 2 ^ 8 := by rw [h28]; exact lo.isLt
  have h2 : hi.val * 256 ||| lo.val = hi.val * 256 + lo.val := by
    calc hi.val * 256 ||| lo.val = 2 ^ 8 * hi.val ||| lo.val := by rw [h28, Nat.mul_comm]
      _ = 2 ^ 8 * hi.val + lo.val := (Nat.mul_add_lt_is_or hlo hi.val).symm
      _ = hi.val * 256 + lo.val := by rw [h28, Nat.mul_comm]
  rw [h2]
  have hlt : hi.val * 256 + lo.val < 2 ^ 63 := by
    have h1 := hi.isLt
    have h2 := lo.isLt
    have h3 : hi.val * 256 + lo.val < 256 * 256 + 256 := by omega
    exact lt_trans h3 (by norm_num)
  rw [int64OfNat_small _ hlt]

/-- Every entry produced by the cell loop on an even running offset `2·m`
comes from a byte pair inside the block: its key is `m + j + 1` for the pair
at byte offsets `2j, 2j+1`, its value is the byte-swapped pair value over
1000, and zero readings are never recorded. -/
theorem cellLoop_mem : ∀ (l : List Byte) (m : Nat) (kv : Nat × ℚ),
    kv ∈ cellLoop l (2 * m) →
    ∃ j : Nat, 2 * j + 1 < l.length ∧ kv.1 = m + j + 1 ∧ kv.2 ≠ 0 ∧
      kv.2 = (((l.getD (2 * j + 1) 0).val * 256 + (l.getD (2 * j) 0).val : Nat) : ℚ) / 1000
  | [], m, kv, hmem => by simp [cellLoop] at hmem
  | [a], m, kv, hmem => by simp [cellLoop] at hmem
  | b0 :: b1 :: rest, m, kv, hmem => by
    simp only [cellLoop] at hmem
    have htwo : 2 * m + 2 = 2 * (m + 1) := by ring
    by_cases hz : binaryToInt [b1, b0] = 0
    · rw [if_pos hz, htwo] at hmem
      obtain ⟨j, hj, hk, hne, hv⟩ := cellLoop_mem rest (m + 1) kv hmem
      refine ⟨j + 1, ?_, by omega, hne, ?_⟩
      · simp only [List.length_cons]; omega
      · have e1 : 2 * (j + 1) + 1 = 2 * j + 1 + 1 + 1 := by ring
        have e2 : 2 * (j + 1) = 2 * j + 1 + 1 := by ring
        rw [e1, e2, List.getD_cons_succ, List.getD_cons_succ, List.getD_cons_succ,
          List.getD_cons_succ]
        exact hv
    · rw [if_neg hz] at hmem
      rcases List.mem_cons.mp hmem with heq | htail
      · refine ⟨0, ?_, ?_, ?_, ?_⟩
        · simp only [List.length_cons]; omega
        · rw [heq]
          show 2 * m / 2 + 1 = m + 0 + 1
          rw [Nat.mul_div_cancel_left m (by norm_num : 0 < 2)]
        · rw [heq]
          show ((binaryToInt [b1, b0] : ℤ) : ℚ) / 1000 ≠ 0
          exact div_ne_zero (Int.cast_ne_zero.mpr hz) (by norm_num)
        · rw [heq]
          show ((binaryToInt [b1, b0] : ℤ) : ℚ) / 1000 = _
          rw [binaryToInt_pair b1 b0]
          norm_num
      · rw [htwo] at htail
        obtain ⟨j, hj, hk, hne, hv⟩ := cellLoop_mem rest (m + 1) kv htail
        refine ⟨j + 1, ?_, by omega, hne, ?_⟩
        · simp only [List.length_cons]; omega
        · have e1 : 2 * (j + 1) + 1 = 2 * j + 1 + 1 + 1 := by ring
          have e2 : 2 * (j + 1) = 2 * j + 1 + 1 := by ring
          rw [e1, e2, List.getD_cons_succ, List.getD_cons_succ, List.getD_cons_succ,
            List.getD_cons_succ]
          exact hv

/-- Claim C5: the cell-voltage map of every decoded battery frame contains no
key 0 and no zero-valued entry, its keys are a subset of 1..16, and each
present value is the byte-swapped (low byte before high byte) 16-bit value of
its pair in the 32-byte block at offsets 16..47, divided by 1000. -/
theorem batteryPack_wellformed (data : List Byte) (b : BatteryInfo)
    (h : parseBatteryInfo data = Except.ok b) (kv : Nat × ℚ)
    (hmem : kv ∈ b.BatteryPack) :
    kv.1 ≠ 0 ∧ kv.2 ≠ 0 ∧ 1 ≤ kv.1 ∧ kv.1 ≤ 16 ∧
    kv.2 = (((((data.drop 16).take 32).getD (2 * (kv.1 - 1) + 1) 0).val * 256 +
      (((data.drop 16).take 32).getD (2 * (kv.1 - 1)) 0).val : Nat) : ℚ) / 1000 := by
  have hlen := parseBatteryInfo_ok_length data b h
  have hb : mkBattery data = b :=
    Except.ok.inj ((parseBatteryInfo_ok data hlen).symm.trans h)
  subst hb
  have hmem2 : kv ∈ cellLoop ((data.drop 16).take 32) (2 * 0) := hmem
  obtain ⟨j, hj, hk, hne, hv⟩ := cellLoop_mem _ 0 kv hmem2
  have hlen32 : ((data.drop 16).take 32).length = 32 :=
    length_drop_take data 16 32 (by omega)
  rw [hlen32] at hj
  have hj1 : kv.1 - 1 = j := by omega
  refine ⟨by omega, hne, by omega, by omega, ?_⟩
  rw [hj1]
  exact hv

/-- A 104-byte battery frame with a single non-zero cell pair: bytes 16 and
17 are 0x10 and 0x0D (cell 1 reads 0x0D10 = 3344, i.e. 3.344 V). -/
def cellFrame : List Byte :=
  List.replicate 16 0 ++ [(16 : Byte), 13] ++ List.replicate 86 0

theorem batteryPack_wellformed_witness :
    (1 : ℕ) ≠ 0 ∧ ((3344 : ℤ) : ℚ) / 1000 ≠ 0 ∧ (1 : ℕ) ≤ 1 ∧ (1 : ℕ) ≤ 16 ∧
    ((3344 : ℤ) : ℚ) / 1000 =
      (((((cellFrame.drop 16).take 32).getD 1 0).val * 256 +
        (((cellFrame.drop 16).take 32).getD 0 0).val : Nat) : ℚ) / 1000 := by
  have hblock : (cellFrame.drop 16).take 32 =
      (16 : Byte) :: 13 :: List.replicate 30 0 := by decide
  have hpack : (mkBattery cellFrame).BatteryPack = [(1, ((3344 : ℤ) : ℚ) / 1000)] := by
    show cellLoop ((cellFrame.drop 16).take 32) 0 = _
    rw [hblock]
    have hv13 : ((13 : Byte)).val = 13 := rfl
    have hv16 : ((16 : Byte)).val = 16 := rfl
    have hv0 : ((0 : Byte)).val = 0 := rfl
    norm_num [cellLoop, binaryToInt_pair, List.replicate, hv13, hv16, hv0]
  have hmem : ((1 : ℕ), ((3344 : ℤ) : ℚ) / 1000) ∈ (mkBattery cellFrame).BatteryPack := by
    rw [hpack]
    exact List.mem_singleton.mpr rfl
  exact batteryPack_wellformed cellFrame (mkBattery cellFrame)
    (parseBatteryInfo_ok cellFrame (by decide)) (1, ((3344 : ℤ) : ℚ) / 1000) hmem

/-- The hardware-version loop of `parseVersion` (src/main.go:191-197): scan
every other byte (step 2) from the start of the version block, keeping bytes
in the printable ASCII range 32..126 as characters and dropping the rest. -/
def hardwareVersionChars : List Byte → List Char
  | [] => []
  | [a] => if 32 ≤ a.val ∧ a.val ≤ 126 then [Char.ofNat a.val] else []
  | a :: _ :: rest =>
    (if 32 ≤ a.val ∧ a.val ≤ 126 then [Char.ofNat a.val] else []) ++
      hardwareVersionChars rest

/-- `parseVersion` (src/main.go:181-200): firmware version "a.b.c" from three
2-byte big-endian words, manufacture date "y-m-d" from a 2-byte word and two
single bytes, and the hardware-version string from the printable every-other
bytes; all offsets relative to the block `data[8:]`. -/
def parseVersion (data : List Byte) : Except DecodeError (String × String × String) := do
  let start ← goSlice data 8 data.length
  let f1 ← goSlice start 0 2
  let f2 ← goSlice start 2 4
  let f3 ← goSlice start 4 6
  let firmwareVersion :=
    toString (binaryToInt f1) ++ "." ++ toString (binaryToInt f2) ++ "." ++
      toString (binaryToInt f3)
  let d1 ← goSlice start 6 8
  let b8 ← goIndex start 8
  let b9 ← goIndex start 9
  let manufactureDate :=
    toString (binaryToInt d1) ++ "-" ++ toString b8.val ++ "-" ++ toString b9.val
  let hardwareVersion := String.mk (hardwareVersionChars start)
  return (firmwareVersion, manufactureDate, hardwareVersion)

theorem goSlice_inv {data : List Byte} {lo hi : Nat} {a : List Byte}
    (h : goSlice data lo hi = Except.ok a) :
    a = (data.drop lo).take (hi - lo) ∧ lo ≤ hi ∧ hi ≤ data.length := by
  by_cases hc : lo ≤ hi ∧ hi ≤ data.length
  · rw [goSlice, if_pos hc] at h
    exact ⟨(Except.ok.inj h).symm, hc.1, hc.2⟩
  · rw [goSlice, if_neg hc] at h
    simp at h

/-- The every-other-byte walk of the hardware-version loop picks exactly the
bytes at even positions (relative to an even enumeration start), then keeps
the printable ones. -/
theorem hardwareVersionChars_enumFrom : ∀ (l : List Byte) (n : Nat), n % 2 = 0 →
    hardwareVersionChars l =
      ((((List.enumFrom n l).filter (fun p => p.1 % 2 = 0)).map Prod.snd).filter
        (fun v => 32 ≤ v.val ∧ v.val ≤ 126)).map (fun v => Char.ofNat v.val)
  | [], n, hn => by simp [hardwareVersionChars]
  | [a], n, hn => by
    by_cases ha : 32 ≤ a.val ∧ a.val ≤ 126 <;>
      simp [hardwareVersionChars, List.enumFrom, List.filter_cons, hn, ha]
  | a :: b :: rest, n, hn => by
    have hn1 : ¬((n + 1) % 2 = 0) := by omega
    have hn2 : (n + 2) % 2 = 0 := by omega
    have hrec := hardwareVersionChars_enumFrom rest (n + 2) hn2
    by_cases ha : 32 ≤ a.val ∧ a.val ≤ 126 <;>
      simp [hardwareVersionChars, List.enumFrom, List.filter_cons, hn, hn1, ha, hrec]

/-- Claim C8: the hardware-version string of every successfully decoded
version buffer consists of exactly the bytes at even positions of the block
starting at offset 8 whose values lie in the printable ASCII range 32..126
(0x20..0x7E), in order; non-printable bytes are dropped, not substituted. -/
theorem versionHardware_printable (data : List Byte) (fw md hw : String)
    (h : parseVersion data = Except.ok (fw, md, hw)) :
    hw.data = ((((data.drop 8).enum.filter (fun p => p.1 % 2 = 0)).map Prod.snd).filter
      (fun v => 32 ≤ v.val ∧ v.val ≤ 126)).map (fun v => Char.ofNat v.val) := by
  rw [parseVersion] at h
  obtain ⟨start, hstart, h⟩ := except_bind_ok_inv h
  obtain ⟨f1, hf1, h⟩ := except_bind_ok_inv h
  obtain ⟨f2, hf2, h⟩ := except_bind_ok_inv h
  obtain ⟨f3, hf3, h⟩ := except_bind_ok_inv h
  obtain ⟨d1, hd1, h⟩ := except_bind_ok_inv h
  obtain ⟨b8, hb8, h⟩ := except_bind_ok_inv h
  obtain ⟨b9, hb9, h⟩ := except_bind_ok_inv h
  obtain ⟨hse, hlo, hhi⟩ := goSlice_inv hstart
  have hstart8 : start = data.drop 8 := by
    rw [hse]
    have hlen : (data.drop 8).length = data.length - 8 := List.length_drop 8 data
    exact List.take_of_length_le (le_of_eq hlen)
  have ht := Except.ok.inj h
  have hhw : String.mk (hardwareVersionChars start) = hw :=
    congrArg (fun t => t.2.2) ht
  rw [← hhw, hstart8]
  show hardwareVersionChars (data.drop 8) = _
  have henum : (data.drop 8).enum = List.enumFrom 0 (data.drop 8) := rfl
  rw [henum]
  exact hardwareVersionChars_enumFrom (data.drop 8) 0 rfl

/-- A concrete 18-byte version response: block bytes
65 1 66 2 67 3 7 231 72 5. -/
def versionFrame : List Byte :=
  List.replicate 8 0 ++ [65, 1, 66, 2, 67, 3, 7, 231, 72, 5]

theorem versionHardware_printable_witness :
    ("ABCH" : String).data =
      ((((versionFrame.drop 8).enum.filter (fun p => p.1 % 2 = 0)).map Prod.snd).filter
        (fun v => 32 ≤ v.val ∧ v.val ≤ 126)).map (fun v => Char.ofNat v.val) :=
  versionHardware_printable versionFrame "16641.16898.17155" "2023-72-5" "ABCH" (by rfl)

/-- The command catalog `pqCommands` (src/main.go:19-23): command names to hex
request payloads, listed in source order (Go map iteration order is
unspecified; no claim depends on the order). -/
def pqCommands : List (String × String) :=
  [("GET_VERSION", "000004011655AA1A"),
   ("GET_BATTERY_INFO", "000004011355AA17"),
   ("SERIAL_NUMBER", "000004011055AA14")]

/-- What one invocation of the notification callback does with the payload:
which frame decoder, if any, it runs. -/
inductive HandlerResult where
  | parsedBattery (result : Except DecodeError BatteryInfo)
  | parsedVersion (result : Except DecodeError (String × String × String))
  | serialNumber (raw : List Byte)
  | ignored
deriving Repr

/-- The notification closure registered by `readBMS` for the command `name`
(src/main.go:273-284): it runs `parseBatteryInfo` when the in-flight command
is GET_BATTERY_INFO and does nothing at all for every other command; in
particular `parseVersion` is never invoked. -/
def notificationHandler (name : String) (data : List Byte) : HandlerResult :=
  if name = "GET_BATTERY_INFO" then HandlerResult.parsedBattery (parseBatteryInfo data)
  else HandlerResult.ignored

/-- Claim C7 as stated is false: when a notification arrives while
GET_VERSION is awaiting its response, the handler does not invoke the version
decoder (it ignores the payload instead of returning
`parsedVersion (parseVersion data)`). -/
theorem version_notification_not_decoded :
    notificationHandler "GET_VERSION" versionFrame ≠
      HandlerResult.parsedVersion (parseVersion versionFrame) := by
  rw [notificationHandler, if_neg (by decide)]
  simp

/-- Claim C7 amended: the notification handler invokes `parseBatteryInfo`
when the in-flight command is GET_BATTERY_INFO and invokes no decoder at all
for GET_VERSION and SERIAL_NUMBER. -/
theorem notification_dispatch_battery_only (data : List Byte) :
    notificationHandler "GET_BATTERY_INFO" data =
      HandlerResult.parsedBattery (parseBatteryInfo data) ∧
    notificationHandler "GET_VERSION" data = HandlerResult.ignored ∧
    notificationHandler "SERIAL_NUMBER" data = HandlerResult.ignored := by
  refine ⟨?_, ?_, ?_⟩
  · rw [notificationHandler, if_pos rfl]
  · rw [notificationHandler, if_neg (by decide)]
  · rw [notificationHandler, if_neg (by decide)]

/-- Modelled from the spec: the transport collaborator of section 6
(`subscribe` / `unsubscribe` / `writeNoResponse` on the single shared
notification channel). The channel carries one registered handler:
`EnableNotifications(handler)` replaces it, `EnableNotifications(nil)` clears
it. The oracle says which transport calls fail for which command. -/
structure TransportOracle where
  subOk : String → Bool
  writeOk : String → Bool
  unsubOk : String → Bool

/-- Observable events of a `readBMS` run. A `window` event is the one-second
response window (`time.Sleep`), recording which command's handler is
registered on the channel while the window is open. -/
inductive BMSEvent where
  | subscribe (cmd : String)
  | subscribeFailed (cmd : String)
  | write (cmd : String)
  | writeFailed (cmd : String)
  | window (cmd : String) (active : Option String)
  | unsubscribe (cmd : String)
  | unsubscribeFailed (cmd : String)
deriving DecidableEq, Repr

/-- One iteration of the `readBMS` loop (src/main.go:270-318) for command
`cmd`, starting from registered-handler state `st`:
`EnableNotifications(notificationHandler)`, then `WriteWithoutResponse`, the
sleep window, then `EnableNotifications(nil)`; each failure `continue`s to
the next command, skipping the rest of the iteration. (The `hex.DecodeString`
step cannot fail on the catalog payloads and is elided.) -/
def readBMSStep (oracle : TransportOracle) (st : Option String) (cmd : String) :
    Option String × List BMSEvent :=
  if oracle.subOk cmd then
    if oracle.writeOk cmd then
      if oracle.unsubOk cmd then
        (none, [BMSEvent.subscribe cmd, BMSEvent.write cmd,
          BMSEvent.window cmd (some cmd), BMSEvent.unsubscribe cmd])
      else
        (some cmd, [BMSEvent.subscribe cmd, BMSEvent.write cmd,
          BMSEvent.window cmd (some cmd), BMSEvent.unsubscribeFailed cmd])
    else
      (some cmd, [BMSEvent.subscribe cmd, BMSEvent.writeFailed cmd])
  else
    (st, [BMSEvent.subscribeFailed cmd])

/-- Run the `readBMS` loop over a command list, threading the
registered-handler state and concatenating the event trace. -/
def readBMSRun (oracle : TransportOracle) : Option String → List String →
    Option String × List BMSEvent
  | st, [] => (st, [])
  | st, cmd :: rest =>
    let s1 := readBMSStep oracle st cmd
    let s2 := readBMSRun oracle s1.1 rest
    (s2.1, s1.2 ++ s2.2)

/-- An oracle that fails exactly the GET_VERSION write; every subscribe,
unsubscribe and other write succeeds. -/
def versionWriteFails : TransportOracle :=
  { subOk := fun _ => true
    writeOk := fun cmd => if cmd = "GET_VERSION" then false else true
    unsubOk := fun _ => true }

/-- Claim C10 as stated is false in its second half: with GET_VERSION's write
failing, the GET_BATTERY_INFO response window opens with GET_BATTERY_INFO's
own handler registered, not the stale GET_VERSION one — the next successful
`EnableNotifications(handler)` replaced it. -/
theorem stale_handler_not_active_in_later_window :
    BMSEvent.window "GET_BATTERY_INFO" (some "GET_BATTERY_INFO") ∈
      (readBMSRun versionWriteFails none (pqCommands.map Prod.fst)).2 ∧
    BMSEvent.window "GET_BATTERY_INFO" (some "GET_VERSION") ∉
      (readBMSRun versionWriteFails none (pqCommands.map Prod.fst)).2 := by
  decide

/-- Claim C10 amended: when the write fails for a command whose subscribe
succeeded, that iteration emits no `EnableNotifications(nil)` call — its
trace is exactly subscribe then writeFailed — and the loop advances to the
remaining commands with the failed command's subscription still registered;
it stays registered only until the next successful subscribe replaces it or a
later `EnableNotifications(nil)` clears it. -/
theorem write_failure_skips_unsubscribe (oracle : TransportOracle)
    (st : Option String) (cmd : String) (rest : List String)
    (hsub : oracle.subOk cmd = true) (hwrite : oracle.writeOk cmd = false) :
    readBMSRun oracle st (cmd :: rest) =
      ((readBMSRun oracle (some cmd) rest).1,
        BMSEvent.subscribe cmd :: BMSEvent.writeFailed cmd ::
          (readBMSRun oracle (some cmd) rest).2) := by
  rw [readBMSRun]
  simp [readBMSStep, hsub, hwrite]

theorem write_failure_skips_unsubscribe_witness :
    readBMSRun versionWriteFails none
        ("GET_VERSION" :: ["GET_BATTERY_INFO", "SERIAL_NUMBER"]) =
      ((readBMSRun versionWriteFails (some "GET_VERSION")
          ["GET_BATTERY_INFO", "SERIAL_NUMBER"]).1,
        BMSEvent.subscribe "GET_VERSION" :: BMSEvent.writeFailed "GET_VERSION" ::
          (readBMSRun versionWriteFails (some "GET_VERSION")
            ["GET_BATTERY_INFO", "SERIAL_NUMBER"]).2) :=
  write_failure_skips_unsubscribe versionWriteFails none "GET_VERSION"
    ["GET_BATTERY_INFO", "SERIAL_NUMBER"] (by decide) (by decide)
